import Mathlib

/-!
Shallow embedding of the Chloroaromatics repository
(`src/geometry_file_generator.py` and `src/scrape_frequency_logs.py`).

Conventions of the embedding:
* Python tuples/lists of 1-based chlorine positions become `List Nat`.
* Python strings become Lean `String`; the f-string / `str.format`
  interpolations are spelled out as explicit concatenations.
* `os.path.join(OUTPUT_DIR, name)` is modelled as `dir ++ "/" ++ name`
  (both components non-empty, no trailing slash, as in the source).
* The file system write is dropped; each generator returns the data it
  computes: the list of `(filepath, content)` pairs it accumulates in
  `results` together with the value of the Python local `filepath` at
  `return` time, as an `Option String` (`none` models the unbound local,
  i.e. the `UnboundLocalError` raised when the loop body never ran).
-/

namespace Chloroaromatics

/-- The six fixed ring-carbon records (`C_ATOMS` in the source). -/
def C_ATOMS : List String :=
  ["C  -3.20928   0.19943  0.00000",
   "C  -2.01150   0.93555  0.00000",
   "C  -0.77511   0.26630  0.00000",
   "C  -0.73650  -1.13907  0.00000",
   "C  -1.93429  -1.87519  0.00000",
   "C  -3.17067  -1.20594  0.00000"]

/-- The six substituent-site coordinate strings (`SUBSTITUENT_COORDS`). -/
def SUBSTITUENT_COORDS : List String :=
  ["-4.67483  -2.13035  0.00000",
   "-4.76193   1.03987 -0.00000",
   " 0.81614  -1.97951  0.00000",
   "-1.88580  -3.64003  0.00000",
   "-2.05998   2.70040 -0.00000",
   " 0.72905   1.19071  0.00000"]

/-- The fixed list of 12 symmetry-reduced isomers (`CHLORINE_POSITIONS`). -/
def CHLORINE_POSITIONS : List (List Nat) :=
  [[1],
   [1, 2], [1, 3], [1, 4],
   [1, 2, 3], [1, 2, 4], [1, 3, 5],
   [1, 2, 3, 4], [1, 2, 3, 5], [1, 2, 4, 5],
   [1, 2, 3, 4, 5],
   [1, 2, 3, 4, 5, 6]]

/-- `"".join(map(str, position_list))` from `generate_gjf_files`. -/
def position_string (position_list : List Nat) : String :=
  String.join (position_list.map toString)

/-- `filename_base = f"{position_string}ClBz"`. -/
def gjf_filename_base (position_list : List Nat) : String :=
  position_string position_list ++ "ClBz"

/-- `title = f"{len(position_list)}-Chloro-Benzene ({position_string})"`. -/
def gjf_title (position_list : List Nat) : String :=
  toString position_list.length ++ "-Chloro-Benzene (" ++ position_string position_list ++ ")"

/-- `GAUSSIAN_HEADER.format(filename=..., title=..., charge=..., multiplicity=...)`. -/
def GAUSSIAN_HEADER (filename title charge multiplicity : String) : String :=
  "%mem=8GB\n%nprocshare=4\n%chk=geometry_chks/" ++ filename ++ ".chk\n# opt am1\n\n"
    ++ title ++ "\n\n" ++ charge ++ " " ++ multiplicity ++ "\n"

/-- The atom-list loop of `generate_gjf_files` (lines 66-83): the six fixed
carbons followed by one substituent record per site `i+1 ∈ {1..6}`, chlorine
when the site is in the position list, hydrogen otherwise, the coordinates
taken from `SUBSTITUENT_COORDS[i]` either way. -/
def gjfAtoms (position_list : List Nat) : List String :=
  C_ATOMS ++ (List.range 6).map (fun i =>
    if i + 1 ∈ position_list then "Cl " ++ SUBSTITUENT_COORDS.getD i ""
    else "H  " ++ SUBSTITUENT_COORDS.getD i "")

/-- The rendered deck of `generate_gjf_files`: header, atoms joined by
newlines, two trailing newlines. -/
def gjf_content (position_list : List Nat) : String :=
  GAUSSIAN_HEADER (gjf_filename_base position_list) (gjf_title position_list) "0" "1"
    ++ String.intercalate "\n" (gjfAtoms position_list) ++ "\n\n"

/-- `generate_gjf_files` returns `(filepath, gjf_content)`. -/
def generate_gjf_files (dir : String) (position_list : List Nat) : String × String :=
  (dir ++ "/" ++ gjf_filename_base position_list ++ ".gjf", gjf_content position_list)

/-! The two intermediate generators of the source are whole-function
duplicates of each other; the embedding keeps one set of definitions per
function, mirroring the source's duplication. -/

/-- The pattern loop of `generate_anion_intermediates` (lines 128-135):
for `i` in 1..6, append the digit when `i` is a retained position of the
original spec, `"_"` when `i` is the removed position, nothing when `i`
is not in the original spec. -/
def anionPattern (orig : List Nat) (removed : Nat) : String :=
  String.join (((List.range 6).map (fun i => i + 1)).filterMap (fun i =>
    if i ∈ orig then some (if i = removed then "_" else toString i) else none))

/-- `filename_base = f"{pattern}ClBzAnionIntermediate"`. -/
def anionFilenameBase (orig : List Nat) (removed : Nat) : String :=
  anionPattern orig removed ++ "ClBzAnionIntermediate"

/-- `title = f"Anion Intermediate (removed {removed}) {pattern}"`. -/
def anionTitle (orig : List Nat) (removed : Nat) : String :=
  "Anion Intermediate (removed " ++ toString removed ++ ") " ++ anionPattern orig removed

/-- The atom-assembly loop of `generate_anion_intermediates`
(lines 147-157): `new_positions` drops the removed position; for each site,
emit chlorine when the site is in `new_positions`, skip the site entirely
when it is the removed one (`continue`), hydrogen otherwise. -/
def anionAtoms (orig : List Nat) (removed : Nat) : List String :=
  let new_positions := orig.filter (fun p => p ≠ removed)
  C_ATOMS ++ (List.range 6).filterMap (fun i =>
    if i + 1 ∈ new_positions then some ("Cl " ++ SUBSTITUENT_COORDS.getD i "")
    else if i = removed - 1 then none
    else some ("H  " ++ SUBSTITUENT_COORDS.getD i ""))

/-- The rendered anion-intermediate deck (lines 159-161). -/
def anionContent (orig : List Nat) (removed : Nat) : String :=
  GAUSSIAN_HEADER (anionFilenameBase orig removed) (anionTitle orig removed) "-1" "0"
    ++ String.intercalate "\n" (anionAtoms orig removed) ++ "\n\n"

/-- `filepath = os.path.join(OUTPUT_DIR, f"{filename_base}.gjf")`. -/
def anionFilepath (dir : String) (orig : List Nat) (removed : Nat) : String :=
  dir ++ "/" ++ anionFilenameBase orig removed ++ ".gjf"

/-- The observable outcome of one generator call: the `results` list of
`(filepath, content)` pairs accumulated in the loop, and the value of the
Python local `filepath` at the `return` statement (`none` when the loop
body never executed, so the local is unbound and the return raises). -/
structure RunResult where
  results : List (String × String)
  ret : Option String
  deriving Repr, DecidableEq

/-- One loop iteration of either intermediate generator: append the
written `(filepath, content)` pair to `results` and set the loop local
`filepath`. -/
def emitStep {α : Type} (f : α → String × String) (st : List (String × String) × Option String)
    (x : α) : List (String × String) × Option String :=
  (st.1 ++ [f x], some (f x).1)

/-- The `(filepath, gjf_content)` pair written by one iteration of
`generate_anion_intermediates`. -/
def anionItem (dir : String) (orig : List Nat) (removed : Nat) : String × String :=
  (anionFilepath dir orig removed, anionContent orig removed)

/-- `generate_anion_intermediates` (lines 106-170): loop over the original
positions, writing one file per removed position and accumulating
`results`; the function then returns the loop-local `filepath`, not
`results`. -/
def generate_anion_intermediates (dir : String) (position_list : List Nat) : RunResult :=
  let st := position_list.foldl (emitStep (anionItem dir position_list))
    (([], none) : List (String × String) × Option String)
  ⟨st.1, st.2⟩

/-- The pattern loop of `generate_neutral_radicals_intermediates`
(lines 194-201), a verbatim duplicate of the anion one. -/
def radicalPattern (orig : List Nat) (removed : Nat) : String :=
  String.join (((List.range 6).map (fun i => i + 1)).filterMap (fun i =>
    if i ∈ orig then some (if i = removed then "_" else toString i) else none))

/-- `filename_base = f"{pattern}ClBzNeutralRadical"`. -/
def radicalFilenameBase (orig : List Nat) (removed : Nat) : String :=
  radicalPattern orig removed ++ "ClBzNeutralRadical"

/-- `title = f"Neutral Radical (removed {removed}) {pattern}"`. -/
def radicalTitle (orig : List Nat) (removed : Nat) : String :=
  "Neutral Radical (removed " ++ toString removed ++ ") " ++ radicalPattern orig removed

/-- The atom-assembly loop of `generate_neutral_radicals_intermediates`
(lines 213-223), a verbatim duplicate of the anion one. -/
def radicalAtoms (orig : List Nat) (removed : Nat) : List String :=
  let new_positions := orig.filter (fun p => p ≠ removed)
  C_ATOMS ++ (List.range 6).filterMap (fun i =>
    if i + 1 ∈ new_positions then some ("Cl " ++ SUBSTITUENT_COORDS.getD i "")
    else if i = removed - 1 then none
    else some ("H  " ++ SUBSTITUENT_COORDS.getD i ""))

/-- The rendered neutral-radical deck (lines 225-227), with charge `0`
and multiplicity `2`. -/
def radicalContent (orig : List Nat) (removed : Nat) : String :=
  GAUSSIAN_HEADER (radicalFilenameBase orig removed) (radicalTitle orig removed) "0" "2"
    ++ String.intercalate "\n" (radicalAtoms orig removed) ++ "\n\n"

/-- `filepath = os.path.join(OUTPUT_DIR, f"{filename_base}.gjf")`. -/
def radicalFilepath (dir : String) (orig : List Nat) (removed : Nat) : String :=
  dir ++ "/" ++ radicalFilenameBase orig removed ++ ".gjf"

/-- The `(filepath, gjf_content)` pair written by one iteration of
`generate_neutral_radicals_intermediates`. -/
def radicalItem (dir : String) (orig : List Nat) (removed : Nat) : String × String :=
  (radicalFilepath dir orig removed, radicalContent orig removed)

/-- `generate_neutral_radicals_intermediates` (lines 172-236). -/
def generate_neutral_radicals_intermediates (dir : String) (position_list : List Nat) : RunResult :=
  let st := position_list.foldl (emitStep (radicalItem dir position_list))
    (([], none) : List (String × String) × Option String)
  ⟨st.1, st.2⟩

/-- A generic deck renderer: header from name/title/state plus the
newline-joined atom list and two trailing newlines.  Both intermediate
generators' decks factor through this shape (claim C5). -/
def renderDeck (filename title charge multiplicity : String) (atoms : List String) : String :=
  GAUSSIAN_HEADER filename title charge multiplicity
    ++ String.intercalate "\n" atoms ++ "\n\n"

/-- One substituent record for a position set: chlorine when the site is a
member, hydrogen otherwise, coordinates from the site table either way. -/
def siteRecord (positions : List Nat) (i : Nat) : String :=
  if i + 1 ∈ positions then "Cl " ++ SUBSTITUENT_COORDS.getD i ""
  else "H  " ++ SUBSTITUENT_COORDS.getD i ""

/-- The digits recovered from a generated base-isomer name: the leading
run of decimal digits, each read as its value. -/
def namePositions (s : String) : List Nat :=
  (s.data.takeWhile Char.isDigit).map (fun c => c.toNat - 48)

/-! Embedding of `src/scrape_frequency_logs.py`.  The three regular
expressions of the source are compiled by hand into scanners over
`List Char`; each scanner realises exactly the Python `re` semantics
(leftmost non-overlapping matches, greedy subpatterns) for its pattern. -/

/-- Python `\s` on the ASCII texts the scraper reads. -/
def isPySpace (c : Char) : Bool :=
  c = ' ' || c = '\t' || c = '\n' || c = '\r' || c = '\x0b' || c = '\x0c'

/-- Does `pat` occur at the head of `l`? -/
def startsWith : List Char → List Char → Bool
  | [], _ => true
  | _ :: _, [] => false
  | p :: ps, c :: cs => p = c && startsWith ps cs

/-- Does `pat` occur as a contiguous substring of `l`? -/
def occursIn (pat : List Char) : List Char → Bool
  | [] => startsWith pat []
  | l@(_ :: t) => startsWith pat l || occursIn pat t

/-- Greedy match of the token regex `[+-]?\d+(?:\.\d*)?(?:[Ee][+-]?\d+)?`
at the head of `l`; returns the matched characters (the match consumes
exactly the returned characters). -/
def parseNumber (l : List Char) : Option (List Char) :=
  let sgn : List Char × List Char :=
    match l with
    | c :: r => if c = '+' || c = '-' then ([c], r) else ([], l)
    | [] => ([], [])
  let ds := sgn.2.takeWhile Char.isDigit
  if ds.isEmpty then none
  else
    let rest2 := sgn.2.drop ds.length
    let frac : List Char × List Char :=
      match rest2 with
      | '.' :: r => ('.' :: r.takeWhile Char.isDigit, r.drop (r.takeWhile Char.isDigit).length)
      | _ => ([], rest2)
    let expo : List Char :=
      match frac.2 with
      | c :: r =>
        if c = 'e' || c = 'E' then
          let es : List Char × List Char :=
            match r with
            | s :: r2 => if s = '+' || s = '-' then ([s], r2) else ([], r)
            | [] => ([], [])
          let eds := es.2.takeWhile Char.isDigit
          if eds.isEmpty then [] else c :: es.1 ++ eds
        else []
      | [] => []
    some (sgn.1 ++ ds ++ frac.1 ++ expo)

/-- The literal part of `DG_RE`. -/
def dgMarker : List Char := "Sum of electronic and thermal Free Energies=".data

/-- The literal part of `ALPHA_LINE_RE`. -/
def alphaMarker : List Char := "Alpha virt. eigenvalues --".data

/-- `DG_RE.findall(text)`: scan left to right; at each occurrence of the
marker followed (after optional whitespace) by a numeric token, capture
the token and resume after it; otherwise advance one character.  The fuel
argument bounds the recursion; `length l` steps always suffice because
every recursive call strictly shortens the list. -/
def findDGAux : Nat → List Char → List (List Char)
  | 0, _ => []
  | _, [] => []
  | fuel + 1, l@(_ :: t) =>
    if startsWith dgMarker l then
      let rest := l.drop dgMarker.length
      let rest2 := rest.drop (rest.takeWhile isPySpace).length
      match parseNumber rest2 with
      | some tok => tok :: findDGAux fuel (rest2.drop tok.length)
      | none => findDGAux fuel t
    else findDGAux fuel t

/-- `ALPHA_LINE_RE.finditer(text)`: the captured group `(.*)` of each
match, i.e. the characters after the marker up to the next newline;
scanning resumes after the match. -/
def findAlphaAux : Nat → List Char → List (List Char)
  | 0, _ => []
  | _, [] => []
  | fuel + 1, l@(_ :: t) =>
    if startsWith alphaMarker l then
      let rest := l.drop alphaMarker.length
      let captured := rest.takeWhile (fun c => c ≠ '\n')
      captured :: findAlphaAux fuel (rest.drop captured.length)
    else findAlphaAux fuel t

/-- `NUMBER_RE.search(line)`: the leftmost numeric token. -/
def searchNumber : List Char → Option (List Char)
  | [] => none
  | l@(_ :: t) =>
    match parseNumber l with
    | some tok => some tok
    | none => searchNumber t

/-- `extract_values(text)` (lines 29-42 of `scrape_frequency_logs.py`):
the last `DG_RE` capture as dG, and the first numeric token of the last
`ALPHA_LINE_RE` capture as LUMO; `none` where nothing matched. -/
def extract_values (text : String) : Option String × Option String :=
  let dgs := findDGAux text.data.length text.data
  let dG := dgs.getLast?.map (fun l => String.mk l)
  let alphas := findAlphaAux text.data.length text.data
  let lumo : Option String :=
    match alphas.getLast? with
    | some last =>
      match searchNumber last with
      | some tok => some (String.mk tok)
      | none => none
    | none => none
  (dG, lumo)

/-- `left.strip(" _")` from `derive_name_from_stem`. -/
def stripSpaceUnderscore (l : List Char) : List Char :=
  ((l.dropWhile (fun c => c = ' ' || c = '_')).reverse.dropWhile
    (fun c => c = ' ' || c = '_')).reverse

/-- `derive_name_from_stem` (lines 45-54 of `scrape_frequency_logs.py`):
truncate the stem at its last underscore (keep it whole when it has
none), strip spaces and underscores from both ends, and fall back to the
original stem when the result is empty. -/
def derive_name_from_stem (stem : String) : String :=
  let s := stem.data
  let leftRaw := if '_' ∈ s then ((s.reverse.dropWhile (fun c => c ≠ '_')).drop 1).reverse else s
  let left := stripSpaceUnderscore leftRaw
  if left.isEmpty then stem else String.mk left

/-! Helper lemmas. -/

theorem foldl_emitStep {α : Type} (f : α → String × String) (l : List α)
    (acc : List (String × String)) (r : Option String) :
    l.foldl (emitStep f) (acc, r)
      = (acc ++ l.map f, if l.isEmpty then r else (l.map f).getLast?.map Prod.fst) := by
  induction l generalizing acc r with
  | nil => simp
  | cons a t ih =>
    simp only [List.foldl_cons, List.map_cons, List.isEmpty_cons]
    have hstep : emitStep f (acc, r) a = (acc ++ [f a], some (f a).1) := rfl
    rw [hstep, ih]
    cases t with
    | nil => simp
    | cons b t2 => simp [List.getLast?_cons_cons]

theorem anion_run (dir : String) (l : List Nat) :
    generate_anion_intermediates dir l
      = ⟨l.map (anionItem dir l),
          if l.isEmpty then none else (l.map (anionItem dir l)).getLast?.map Prod.fst⟩ := by
  unfold generate_anion_intermediates
  rw [foldl_emitStep]
  simp

theorem radical_run (dir : String) (l : List Nat) :
    generate_neutral_radicals_intermediates dir l
      = ⟨l.map (radicalItem dir l),
          if l.isEmpty then none else (l.map (radicalItem dir l)).getLast?.map Prod.fst⟩ := by
  unfold generate_neutral_radicals_intermediates
  rw [foldl_emitStep]
  simp

theorem filterMap_skip {α : Type} (f : Nat → Option α) (g : Nat → α) (bad : Nat)
    (h1 : f bad = none) (h2 : ∀ i, i ≠ bad → f i = some (g i)) (L : List Nat) :
    L.filterMap f = (L.filter (fun i => i ≠ bad)).map g := by
  induction L with
  | nil => rfl
  | cons a t ih =>
    by_cases ha : a = bad
    · subst ha
      simp [List.filterMap_cons, List.filter_cons, h1, ih]
    · simp [List.filterMap_cons, List.filter_cons, ha, h2 a ha, ih]

theorem anionAtoms_char (l : List Nat) (removed : Nat) (h1 : 1 ≤ removed) :
    anionAtoms l removed
      = C_ATOMS ++ ((List.range 6).filter (fun i => ¬ i + 1 = removed)).map
          (siteRecord (l.filter (fun p => p ≠ removed))) := by
  simp only [anionAtoms]
  congr 1
  rw [filterMap_skip _ (siteRecord (l.filter (fun p => p ≠ removed))) (removed - 1)]
  · apply congrArg
    apply List.filter_congr
    intro i _
    rw [decide_eq_decide]
    omega
  · have hsucc : removed - 1 + 1 = removed := by omega
    rw [hsucc]
    have hmem : removed ∉ l.filter (fun p => p ≠ removed) := by
      simp [List.mem_filter]
    simp [hmem]
  · intro i hi
    unfold siteRecord
    rw [if_neg hi]
    split <;> rfl

theorem anionAtoms_length (l : List Nat) (removed : Nat) (h1 : 1 ≤ removed)
    (h6 : removed ≤ 6) : (anionAtoms l removed).length = 11 := by
  rw [anionAtoms_char l removed h1]
  simp only [List.length_append, List.length_map]
  interval_cases removed <;> decide

theorem radicalAtoms_eq_anionAtoms : radicalAtoms = anionAtoms := rfl

theorem radicalPattern_eq_anionPattern : radicalPattern = anionPattern := rfl

theorem length_filter_sites (l : List Nat) (hnd : l.Nodup) (hb : ∀ p ∈ l, 1 ≤ p ∧ p ≤ 6) :
    (([1, 2, 3, 4, 5, 6] : List Nat).filter (fun s => s ∈ l)).length = l.length := by
  have hmem : ∀ a : Nat, a ∈ ([1, 2, 3, 4, 5, 6] : List Nat).filter (fun s => s ∈ l) ↔ a ∈ l := by
    intro a
    simp only [List.mem_filter, decide_eq_true_eq]
    constructor
    · rintro ⟨-, h⟩
      exact h
    · intro h
      refine ⟨?_, h⟩
      have hba := hb a h
      simp only [List.mem_cons, List.not_mem_nil, or_false]
      omega
  have hnd2 : (([1, 2, 3, 4, 5, 6] : List Nat).filter (fun s => s ∈ l)).Nodup :=
    List.Nodup.filter _ (by decide)
  exact ((List.perm_ext_iff_of_nodup hnd2 hnd).mpr hmem).length_eq

theorem length_filter_split {α : Type} (p : α → Bool) (L : List α) :
    (L.filter p).length + (L.filter (fun a => ! p a)).length = L.length := by
  induction L with
  | nil => rfl
  | cons a t ih =>
    cases hpa : p a <;> simp [List.filter_cons, hpa] <;> omega

theorem foldl_append_str (l : List String) :
    ∀ a : String, l.foldl (fun r s => r ++ s) a = a ++ l.foldl (fun r s => r ++ s) "" := by
  induction l with
  | nil =>
    intro a
    simp
  | cons b t ih =>
    intro a
    simp only [List.foldl_cons]
    rw [ih (a ++ b), ih ("" ++ b), String.empty_append, String.append_assoc]

theorem join_cons (s : String) (l : List String) :
    String.join (s :: l) = s ++ String.join l := by
  show (s :: l).foldl (fun r t => r ++ t) "" = s ++ l.foldl (fun r t => r ++ t) ""
  simp only [List.foldl_cons, String.empty_append]
  exact foldl_append_str l s

theorem join_filterMap (f : Nat → Option String) (L : List Nat) :
    String.join (L.filterMap f) = String.join (L.map (fun i => (f i).getD "")) := by
  induction L with
  | nil => rfl
  | cons a t ih =>
    cases hfa : f a with
    | none => simp [List.filterMap_cons, hfa, join_cons, ih]
    | some s => simp [List.filterMap_cons, hfa, join_cons, ih]

theorem findDGAux_eq_nil (fuel : Nat) :
    ∀ l : List Char, occursIn dgMarker l = false → findDGAux fuel l = [] := by
  induction fuel with
  | zero =>
    intro l _
    cases l <;> rfl
  | succ n ih =>
    intro l h
    cases l with
    | nil => rfl
    | cons c t =>
      have h2 : startsWith dgMarker (c :: t) = false ∧ occursIn dgMarker t = false := by
        simpa [occursIn] using h
      simp only [findDGAux, h2.1, Bool.false_eq_true, if_false]
      exact ih t h2.2

theorem findAlphaAux_eq_nil (fuel : Nat) :
    ∀ l : List Char, occursIn alphaMarker l = false → findAlphaAux fuel l = [] := by
  induction fuel with
  | zero =>
    intro l _
    cases l <;> rfl
  | succ n ih =>
    intro l h
    cases l with
    | nil => rfl
    | cons c t =>
      have h2 : startsWith alphaMarker (c :: t) = false ∧ occursIn alphaMarker t = false := by
        simpa [occursIn] using h
      simp only [findAlphaAux, h2.1, Bool.false_eq_true, if_false]
      exact ih t h2.2

/-! Claim theorems. -/

/-- C4: the intermediate name is built by scanning site indices 1..6,
emitting the digit for a retained position of the original spec, an
underscore placeholder for the removed position, and nothing for indices
absent from the spec; in particular spec (1,2,3,4,5) with position 3
removed gives the anion filename base "12_45ClBzAnionIntermediate". -/
theorem claim_C4_intermediate_naming :
    (∀ (orig : List Nat) (removed : Nat),
      anionPattern orig removed = String.join ((List.range 6).map (fun i =>
        if i + 1 ∈ orig then (if i + 1 = removed then "_" else toString (i + 1)) else ""))) ∧
    anionPattern [1, 2, 3, 4, 5] 3 = "12_45" ∧
    anionFilenameBase [1, 2, 3, 4, 5] 3 = "12_45ClBzAnionIntermediate" := by
  refine ⟨?_, by decide, by decide⟩
  intro orig removed
  unfold anionPattern
  rw [join_filterMap, List.map_map]
  apply congrArg
  apply List.map_congr_left
  intro i _
  by_cases hm : i + 1 ∈ orig <;> simp [Function.comp, hm]

/-- C5: for every spec and removed position the anion and neutral-radical
derivations produce identical atom lists, and both rendered decks factor
through the same renderer with the same pattern and atoms, differing only
in the charge/multiplicity pair ("-1 0" versus "0 2"), the title string,
and the filename suffix ("ClBzAnionIntermediate" versus
"ClBzNeutralRadical"). -/
theorem claim_C5_state_variants (orig : List Nat) (removed : Nat) :
    radicalAtoms orig removed = anionAtoms orig removed ∧
    radicalPattern orig removed = anionPattern orig removed ∧
    anionContent orig removed
      = renderDeck (anionPattern orig removed ++ "ClBzAnionIntermediate")
          ("Anion Intermediate (removed " ++ toString removed ++ ") " ++ anionPattern orig removed)
          "-1" "0" (anionAtoms orig removed) ∧
    radicalContent orig removed
      = renderDeck (anionPattern orig removed ++ "ClBzNeutralRadical")
          ("Neutral Radical (removed " ++ toString removed ++ ") " ++ anionPattern orig removed)
          "0" "2" (anionAtoms orig removed) :=
  ⟨rfl, rfl, rfl, rfl⟩

/-- C8: `derive_name_from_stem` truncates at the last underscore, falls
back to the whole stem when the stripped truncation is empty:
"mol_run_Baz" maps to "mol_run", "Baz" to "Baz", "___" to "___". -/
theorem claim_C8_derive_name :
    derive_name_from_stem "mol_run_Baz" = "mol_run" ∧
    derive_name_from_stem "Baz" = "Baz" ∧
    derive_name_from_stem "___" = "___" :=
  ⟨by decide, by decide, by decide⟩

/-- C6: for every spec in the fixed 12-entry list, the digits of the
generated base-isomer name (before "ClBz") recover the spec exactly. -/
theorem claim_C6_name_roundtrip :
    ∀ l ∈ CHLORINE_POSITIONS, namePositions (gjf_filename_base l) = l := by
  decide

theorem claim_C6_witness :
    [1, 3, 5] ∈ CHLORINE_POSITIONS ∧
    namePositions (gjf_filename_base [1, 3, 5]) = [1, 3, 5] :=
  ⟨by decide, claim_C6_name_roundtrip [1, 3, 5] (by decide)⟩

/-- C3 counterexample: for the 1-substituent spec (1,), the single derived
intermediate's atom list is NOT just the 6 carbon records: it has 11
records (the 5 sites other than the removed one carry hydrogens). -/
theorem claim_C3_counterexample :
    (generate_anion_intermediates "geometry_input" [1]).results.length = 1 ∧
    ¬ anionAtoms [1] 1 = C_ATOMS ∧
    (anionAtoms [1] 1).length = 11 ∧
    anionAtoms [1] 1
      = C_ATOMS ++
        ["H  -4.76193   1.03987 -0.00000",
         "H   0.81614  -1.97951  0.00000",
         "H  -1.88580  -3.64003  0.00000",
         "H  -2.05998   2.70040 -0.00000",
         "H   0.72905   1.19071  0.00000"] ∧
    ¬ radicalAtoms [1] 1 = C_ATOMS := by
  refine ⟨by decide, by decide, by decide, by decide, by decide⟩

/-- C3 amended: a 1-substituent spec yields exactly one intermediate whose
geometry has zero chlorine records beyond the ring: the 6 carbons plus 5
hydrogen substituents (11 records), the removed site contributing no
record. -/
theorem claim_C3_amended (dir : String) (p : Nat) (h1 : 1 ≤ p) (h6 : p ≤ 6) :
    (generate_anion_intermediates dir [p]).results.length = 1 ∧
    (generate_neutral_radicals_intermediates dir [p]).results.length = 1 ∧
    anionAtoms [p] p
      = C_ATOMS ++ ((List.range 6).filter (fun i => ¬ i + 1 = p)).map
          (fun i => "H  " ++ SUBSTITUENT_COORDS.getD i "") ∧
    radicalAtoms [p] p = anionAtoms [p] p ∧
    (anionAtoms [p] p).length = 11 ∧
    ((anionAtoms [p] p).filter (fun s => startsWith "Cl".data s.data)).length = 0 := by
  refine ⟨?_, ?_, ?_, rfl, anionAtoms_length [p] p h1 h6, ?_⟩
  · rw [anion_run]
    simp
  · rw [radical_run]
    simp
  · interval_cases p <;> decide
  · interval_cases p <;> decide

theorem claim_C3_witness :
    (generate_anion_intermediates "geometry_input" [1]).results.length = 1 ∧
    (anionAtoms [1] 1).length = 11 ∧
    ((anionAtoms [1] 1).filter (fun s => startsWith "Cl".data s.data)).length = 0 := by
  have h := claim_C3_amended "geometry_input" 1 (by decide) (by decide)
  exact ⟨h.1, h.2.2.2.2.1, h.2.2.2.2.2⟩

/-- C1: for every spec of size k with k at least 1, each intermediate
generator produces exactly k intermediates; each derived atom list has
exactly 11 records, and the removed position's site contributes no record
at all: the substituent records range exactly over the five sites other
than the removed one. -/
theorem claim_C1_derivator (dir : String) (l : List Nat) (hk : 1 ≤ l.length)
    (hnd : l.Nodup) (hb : ∀ p ∈ l, 1 ≤ p ∧ p ≤ 6) :
    (generate_anion_intermediates dir l).results.length = l.length ∧
    (generate_neutral_radicals_intermediates dir l).results.length = l.length ∧
    ∀ removed ∈ l,
      (anionAtoms l removed).length = 11 ∧
      (radicalAtoms l removed).length = 11 ∧
      anionAtoms l removed
        = C_ATOMS ++ ((List.range 6).filter (fun i => ¬ i + 1 = removed)).map
            (siteRecord (l.filter (fun p => p ≠ removed))) ∧
      radicalAtoms l removed
        = C_ATOMS ++ ((List.range 6).filter (fun i => ¬ i + 1 = removed)).map
            (siteRecord (l.filter (fun p => p ≠ removed))) := by
  refine ⟨?_, ?_, ?_⟩
  · rw [anion_run]
    simp
  · rw [radical_run]
    simp
  · intro removed hr
    obtain ⟨hr1, hr6⟩ := hb removed hr
    have hchar := anionAtoms_char l removed hr1
    refine ⟨anionAtoms_length l removed hr1 hr6, ?_, hchar, ?_⟩
    · rw [radicalAtoms_eq_anionAtoms]
      exact anionAtoms_length l removed hr1 hr6
    · rw [radicalAtoms_eq_anionAtoms]
      exact hchar

theorem claim_C1_witness :
    (generate_anion_intermediates "geometry_input" [1, 2, 3, 4, 5]).results.length = 5 ∧
    (generate_neutral_radicals_intermediates "geometry_input" [1, 2, 3, 4, 5]).results.length = 5 ∧
    (anionAtoms [1, 2, 3, 4, 5] 3).length = 11 := by
  have h := claim_C1_derivator "geometry_input" [1, 2, 3, 4, 5] (by decide) (by decide) (by decide)
  exact ⟨h.1, h.2.1, (h.2.2 3 (by decide)).1⟩

/-- C2: for every spec of size k the enumerator's geometry has exactly 12
records: the 6 carbons first, then 6 substituent records in site order
with coordinates copied verbatim from the table regardless of element;
exactly k sites (precisely those in the spec) yield "Cl" records and the
other 6-k yield "H". -/
theorem claim_C2_enumerator (l : List Nat) (hnd : l.Nodup)
    (hb : ∀ p ∈ l, 1 ≤ p ∧ p ≤ 6) :
    (gjfAtoms l).length = 12 ∧
    gjfAtoms l = C_ATOMS ++ (List.range 6).map (fun i =>
      (if i + 1 ∈ l then "Cl " else "H  ") ++ SUBSTITUENT_COORDS.getD i "") ∧
    ((List.range 6).filter (fun i => i + 1 ∈ l)).length = l.length ∧
    ((List.range 6).filter (fun i => ¬ i + 1 ∈ l)).length = 6 - l.length := by
  have hcount : ((List.range 6).filter (fun i => i + 1 ∈ l)).length = l.length := by
    have h1 : (([1, 2, 3, 4, 5, 6] : List Nat).filter (fun s => s ∈ l)).length = l.length :=
      length_filter_sites l hnd hb
    have h2 : ([1, 2, 3, 4, 5, 6] : List Nat) = (List.range 6).map (fun i => i + 1) := rfl
    rw [h2, List.filter_map] at h1
    simpa [Function.comp] using h1
  refine ⟨?_, ?_, hcount, ?_⟩
  · simp [gjfAtoms, C_ATOMS]
  · unfold gjfAtoms
    apply congrArg
    apply List.map_congr_left
    intro i _
    by_cases hm : i + 1 ∈ l <;> simp [hm]
  · have hsplit := length_filter_split (fun i => decide (i + 1 ∈ l)) (List.range 6)
    have hneg : ((List.range 6).filter (fun i => ¬ i + 1 ∈ l))
        = ((List.range 6).filter (fun i => ! decide (i + 1 ∈ l))) := by
      apply List.filter_congr
      intro i _
      simp [decide_not]
    rw [hneg]
    simp only [List.length_range] at hsplit
    omega

theorem claim_C2_witness :
    (gjfAtoms [1, 3, 5]).length = 12 ∧
    ((List.range 6).filter (fun i => i + 1 ∈ ([1, 3, 5] : List Nat))).length = 3 := by
  have h := claim_C2_enumerator [1, 3, 5] (by decide) (by decide)
  exact ⟨h.1, h.2.2.1⟩

/-- C7: `extract_values` returns as dG the numeric token after the last
occurrence of the free-energy marker, as LUMO the first numeric token on
the last "Alpha virt. eigenvalues --" line, and `none` for a result whose
marker is absent from the text. -/
theorem claim_C7_extract_values :
    extract_values ("Sum of electronic and thermal Free Energies=  -123.456 Sum of electronic and thermal Free Energies=  -123.456") = (some "-123.456", none) ∧
    extract_values ("x Sum of electronic and thermal Free Energies=  -111.222\ny Sum of electronic and thermal Free Energies=  -123.456\n") = (some "-123.456", none) ∧
    extract_values "Alpha virt. eigenvalues --  0.012 0.034" = (none, some "0.012") ∧
    (∀ t : String, occursIn dgMarker t.data = false → (extract_values t).1 = none) ∧
    (∀ t : String, occursIn alphaMarker t.data = false → (extract_values t).2 = none) := by
  refine ⟨by decide, by decide, by decide, ?_, ?_⟩
  · intro t h
    have hnil := findDGAux_eq_nil t.length t.data h
    simp [extract_values, hnil]
  · intro t h
    have hnil := findAlphaAux_eq_nil t.length t.data h
    simp [extract_values, hnil]

theorem claim_C7_witness :
    occursIn dgMarker "no markers here".data = false ∧
    occursIn alphaMarker "no markers here".data = false ∧
    (extract_values "no markers here").1 = none ∧
    (extract_values "no markers here").2 = none :=
  ⟨by decide, by decide,
    claim_C7_extract_values.2.2.2.1 "no markers here" (by decide),
    claim_C7_extract_values.2.2.2.2 "no markers here" (by decide)⟩

/-- C9: for a non-empty position list, each generator returns only the
filepath of the last intermediate written, a single string, not the
accumulated list of all (filepath, content) pairs. -/
theorem claim_C9_returns_last (dir : String) (l : List Nat) (h : l ≠ []) :
    (generate_anion_intermediates dir l).results.length = l.length ∧
    (generate_anion_intermediates dir l).ret
      = ((generate_anion_intermediates dir l).results.getLast?).map Prod.fst ∧
    (generate_anion_intermediates dir l).ret = some (anionFilepath dir l (l.getLast h)) ∧
    (generate_neutral_radicals_intermediates dir l).results.length = l.length ∧
    (generate_neutral_radicals_intermediates dir l).ret
      = ((generate_neutral_radicals_intermediates dir l).results.getLast?).map Prod.fst ∧
    (generate_neutral_radicals_intermediates dir l).ret
      = some (radicalFilepath dir l (l.getLast h)) := by
  have hE : l.isEmpty = false := by
    simpa [List.isEmpty_iff] using h
  rw [anion_run, radical_run]
  simp only [hE, Bool.false_eq_true, if_false]
  refine ⟨by simp, by simp, ?_, by simp, by simp, ?_⟩
  · show ((l.map (anionItem dir l)).getLast?).map Prod.fst = _
    rw [List.getLast?_map, List.getLast?_eq_getLast l h]
    rfl
  · show ((l.map (radicalItem dir l)).getLast?).map Prod.fst = _
    rw [List.getLast?_map, List.getLast?_eq_getLast l h]
    rfl

theorem claim_C9_witness :
    (generate_anion_intermediates "geometry_input" [1, 2]).results.length = 2 ∧
    (generate_anion_intermediates "geometry_input" [1, 2]).ret
      = some (anionFilepath "geometry_input" [1, 2] 2) := by
  have h := claim_C9_returns_last "geometry_input" [1, 2] (by decide)
  exact ⟨h.1, h.2.2.1⟩

/-- C10: on the empty position list both generators write no files and do
not return normally (the loop-local `filepath` stays unbound, modelled by
`ret = none`); any non-empty list returns normally. -/
theorem claim_C10_empty_input (dir : String) :
    generate_anion_intermediates dir [] = ⟨[], none⟩ ∧
    generate_neutral_radicals_intermediates dir [] = ⟨[], none⟩ ∧
    ∀ l : List Nat, l ≠ [] →
      (generate_anion_intermediates dir l).ret ≠ none ∧
      (generate_neutral_radicals_intermediates dir l).ret ≠ none := by
  refine ⟨rfl, rfl, ?_⟩
  intro l h
  have hE : l.isEmpty = false := by
    simpa [List.isEmpty_iff] using h
  rw [anion_run, radical_run]
  simp only [hE, Bool.false_eq_true, if_false]
  constructor
  · show ((l.map (anionItem dir l)).getLast?).map Prod.fst ≠ none
    rw [List.getLast?_map, List.getLast?_eq_getLast l h]
    simp
  · show ((l.map (radicalItem dir l)).getLast?).map Prod.fst ≠ none
    rw [List.getLast?_map, List.getLast?_eq_getLast l h]
    simp

theorem claim_C10_witness :
    generate_anion_intermediates "geometry_input" [] = ⟨[], none⟩ ∧
    (generate_anion_intermediates "geometry_input" [1]).ret ≠ none := by
  have h := claim_C10_empty_input "geometry_input"
  exact ⟨h.1, (h.2.2 [1] (by decide)).1⟩

end Chloroaromatics
